import Mathlib

/-!
Verification of the personalization/memory subsystem and the plan parser of
this repository, as a shallow embedding in Lean.

Strings are modelled through their character lists (`String.data`); JavaScript
string primitives (`indexOf`, `substring`, `trim`, `includes`) are translated
to executable list functions.  Regular-expression searches in the source are
all searches for literal substrings or simple line patterns and are modelled
accordingly (line terminators are modelled as the newline character).  The
relational store is an explicit record of row lists; the external embedding
API and the database's vector-distance computation are oracles supplied as
function-valued parameters.  Timestamps are naturals supplied explicitly where
the source calls `new Date()` / relies on the database `defaultNow()`.
-/

namespace PersonalizedAI

/-! ## JavaScript string primitives, modelled on `List Char` -/

/-- Whitespace, as recognised by the JavaScript `\s` class and `trim`
(the ASCII subset: space, tab, LF, VT, FF, CR; the Unicode space characters
do not occur in any input considered here). -/
def wsChar (c : Char) : Bool :=
  c == ' ' || c == Char.ofNat 9 || c == Char.ofNat 10 || c == Char.ofNat 11 ||
  c == Char.ofNat 12 || c == Char.ofNat 13

/-- The regex `.` metacharacter: any character except a line terminator
(modelled as the newline character). -/
def dotChar (c : Char) : Bool := !(c == Char.ofNat 10)

/-- The `String.prototype.trim`: drop whitespace from both ends. -/
def jsTrimList (l : List Char) : List Char :=
  ((l.dropWhile wsChar).reverse.dropWhile wsChar).reverse

/-- The `String.prototype.trim` on strings. -/
def jsTrim (s : String) : String := ⟨jsTrimList s.data⟩

/-- The `String.prototype.indexOf` for a literal pattern: the first position whose
suffix starts with `pat`, if any. -/
def listIndexOf (s pat : List Char) : Option Nat :=
  match s with
  | [] => if pat.isPrefixOf ([] : List Char) then some 0 else none
  | c :: t =>
    if pat.isPrefixOf (c :: t) then some 0
    else (listIndexOf t pat).map (· + 1)

/-- The `String.prototype.indexOf` on strings (`none` models the `-1` result). -/
def jsIndexOf (s pat : String) : Option Nat := listIndexOf s.data pat.data

/-- The `String.prototype.includes`. -/
def jsIncludes (s pat : String) : Bool := (jsIndexOf s pat).isSome

/-- The `String.prototype.substring(a, b)` (both bounds given; in every call site
modelled here the bounds already satisfy `a ≤ b ≤ length`, so clamping and
swapping never fire, but `take`/`drop` clamp the same way JavaScript does). -/
def jsSubstring (s : List Char) (a b : Nat) : List Char := (s.take b).drop a

/-- The `String.prototype.substring(a)` (one-argument form). -/
def jsSubstringFrom (s : List Char) (a : Nat) : List Char := s.drop a

/-- Split on the newline character (`String.match` with the `m` flag works
line by line; line terminators are modelled as newlines). -/
def splitOnNl : List Char → List (List Char)
  | [] => [[]]
  | c :: t =>
    if c == Char.ofNat 10 then [] :: splitOnNl t
    else
      match splitOnNl t with
      | [] => [[c]]
      | h :: r => (c :: h) :: r

/-- Case-insensitive character comparison, for regexes carrying the `i` flag. -/
def ciEq (a b : Char) : Bool := a.toLower == b.toLower

/-- Case-insensitive `isPrefixOf`. -/
def ciIsPrefixOf : List Char → List Char → Bool
  | [], _ => true
  | _ :: _, [] => false
  | a :: as, b :: bs => ciEq a b && ciIsPrefixOf as bs

/-- Scan a string left to right and return the first successful match of `f`
on a suffix — the search behaviour of `String.prototype.match` without `g`. -/
def scanFirst (f : List Char → Option (List Char)) : List Char → Option (List Char)
  | [] => f []
  | c :: t =>
    match f (c :: t) with
    | some r => some r
    | none => scanFirst f t

/-! ## The plan parser (`app/lib/services/appBuildingTools.ts`) -/

/-- The fixed structured-plan marker, byte for byte as it appears in the
source (the emoji appears in mojibake form there). -/
def planMarker : String := "## ðŸ“‹ STRUCTURED PROJECT PLAN"

/-- The `isStructuredPlan`: true iff the marker substring is present. -/
def isStructuredPlan (content : String) : Bool := jsIncludes content planMarker

/-- Parsed plan: the `overview` record. -/
structure PlanOverview where
  vision : Option String
  targetUsers : Option String
  coreValueProposition : Option String
deriving DecidableEq, Repr

/-- Parsed plan: the `requirements` record. -/
structure PlanRequirements where
  functional : Option (List String)
  nonFunctional : Option (List String)
  userExperience : Option (List String)
deriving DecidableEq, Repr

/-- Parsed plan: the `architecture` record. -/
structure PlanArchitecture where
  frontend : Option String
  backend : Option String
  infrastructure : Option String
deriving DecidableEq, Repr

/-- Parsed plan: the `roadmap` record. -/
structure PlanRoadmap where
  phase1 : Option String
  phase2 : Option String
  phase3 : Option String
deriving DecidableEq, Repr

/-- The `StructuredPlan`.  The `structure`, `considerations` and `nextSteps`
fields are always assigned the result of `extractSection`, which is a string
(possibly empty), so they are plain strings here; `planStructure` renders the
source field named `structure` (a keyword in Lean). -/
structure StructuredPlan where
  title : String
  overview : PlanOverview
  requirements : PlanRequirements
  architecture : PlanArchitecture
  roadmap : PlanRoadmap
  planStructure : String
  considerations : String
  nextSteps : String
  rawContent : String
deriving DecidableEq, Repr

/-- The `extractSection(content, sectionHeader)`: content from just after the
header occurrence to the next `"\n## "` (or end of text), trimmed. -/
def extractSection (content : String) (sectionHeader : String) : String :=
  match jsIndexOf content sectionHeader with
  | none => ""
  | some sectionStart =>
    let hl := sectionHeader.data.length
    let sectionEnd :=
      match listIndexOf (jsSubstringFrom content.data (sectionStart + hl)) ("\n## ").data with
      | some i => sectionStart + hl + i
      | none => content.data.length
    jsTrim ⟨jsSubstring content.data (sectionStart + hl) sectionEnd⟩

/-- Greedy `\s*(.+)` with backtracking, as the JavaScript engine evaluates it:
try the capture after the longest run of whitespace first, giving characters
back until the capture can start with a non-terminator character.
`k` is the number of whitespace characters currently consumed. -/
def wsCapFrom (l : List Char) : Nat → Option (List Char)
  | 0 =>
    match l with
    | c :: _ => if dotChar c then some (l.takeWhile dotChar) else none
    | [] => none
  | k + 1 =>
    match l.drop (k + 1) with
    | c :: _ =>
      if dotChar c then some ((l.drop (k + 1)).takeWhile dotChar)
      else wsCapFrom l k
    | [] => wsCapFrom l k

/-- The pattern `\s*(.+)` at the head of `l`. -/
def wsStarCapture (l : List Char) : Option (List Char) :=
  wsCapFrom l (l.takeWhile wsChar).length

/-- One anchored attempt of the regex `- \*\*KEY\*\*:?\s*(.+)` with the `i`
flag, at the head of `s`; returns the capture group. -/
def bulletAt (key : List Char) (s : List Char) : Option (List Char) :=
  if ciIsPrefixOf ("- **").data s then
    let rest1 := s.drop 4
    if ciIsPrefixOf key rest1 then
      let rest2 := rest1.drop key.length
      if ciIsPrefixOf ("**").data rest2 then
        let rest3 := rest2.drop 2
        match (match rest3 with
               | ':' :: r4 => wsStarCapture r4
               | _ => none) with
        | some cap => some cap
        | none => wsStarCapture rest3
      else none
    else none
  else none

/-- The `extractBulletPoint(content, key)`: first match of
`- \*\*key\*\*:?\s*(.+)` (case-insensitive), capture trimmed. -/
def extractBulletPoint (content : String) (key : String) : Option String :=
  (scanFirst (bulletAt key.data) content.data).map (fun cap => jsTrim ⟨cap⟩)

/-- One anchored attempt of `# Project Plan: (.+)` at the head of `s`. -/
def titleCaptureAt (s : List Char) : Option (List Char) :=
  if ("# Project Plan: ").data.isPrefixOf s then
    let cap := (s.drop ("# Project Plan: ").data.length).takeWhile dotChar
    if cap.isEmpty then none else some cap
  else none

/-- The `planContent.match(/# Project Plan: (.+)/)`: the capture of the first
match, if any. -/
def planTitleMatch (s : String) : Option String :=
  (scanFirst titleCaptureAt s.data).map (fun cap => ⟨cap⟩)

/-- A line matched by `/^- (.+)$/m`: starts with `"- "` and has at least one
character after the marker (within a line, every character is a `.`-character
in this model). -/
def bulletLine (l : List Char) : Bool :=
  ("- ").data.isPrefixOf l && !(l.drop 2).isEmpty

/-- The `extractSubsectionItems(content, subsection)`.  NOTE: faithful to the
source, which advances past the found heading by `subsection.length` only —
not by the length of the searched string `"### " + subsection` — so the
extracted range starts four characters before the end of the heading. -/
def extractSubsectionItems (content : String) (subsection : String) : Option (List String) :=
  match jsIndexOf content ("### " ++ subsection) with
  | none => none
  | some subsectionStart =>
    let sl := subsection.data.length
    let subsectionEnd :=
      match listIndexOf (jsSubstringFrom content.data (subsectionStart + sl)) ("\n### ").data with
      | some i => subsectionStart + sl + i
      | none => content.data.length
    let subsectionContent := jsSubstring content.data (subsectionStart + sl) subsectionEnd
    let items := (splitOnNl subsectionContent).filter bulletLine
    if items.isEmpty then none
    else some (items.map (fun item => jsTrim ⟨item.drop 2⟩))

/-- The `extractSubsectionText(content, subsection)`.  Same offset note as
`extractSubsectionItems`; `none` models the `undefined` result of
`subsectionContent || undefined` on an empty trimmed extract. -/
def extractSubsectionText (content : String) (subsection : String) : Option String :=
  match jsIndexOf content ("### " ++ subsection) with
  | none => none
  | some subsectionStart =>
    let sl := subsection.data.length
    let subsectionEnd :=
      match listIndexOf (jsSubstringFrom content.data (subsectionStart + sl)) ("\n### ").data with
      | some i => subsectionStart + sl + i
      | none => content.data.length
    let subsectionContent := jsTrim ⟨jsSubstring content.data (subsectionStart + sl) subsectionEnd⟩
    if subsectionContent == "" then none else some subsectionContent

/-- The `parseOverviewSection`. -/
def parseOverviewSection (content : String) : PlanOverview :=
  { vision := extractBulletPoint content ("Vision")
    targetUsers := extractBulletPoint content ("Target Users")
    coreValueProposition := extractBulletPoint content ("Core Value Proposition") }

/-- The `parseRequirementsSection`. -/
def parseRequirementsSection (content : String) : PlanRequirements :=
  { functional := extractSubsectionItems content ("Functional Requirements")
    nonFunctional := extractSubsectionItems content ("Non-Functional Requirements")
    userExperience := extractSubsectionItems content ("User Experience Requirements") }

/-- The `parseArchitectureSection`. -/
def parseArchitectureSection (content : String) : PlanArchitecture :=
  { frontend := extractSubsectionText content ("Frontend")
    backend := extractSubsectionText content ("Backend")
    infrastructure := extractSubsectionText content ("Infrastructure") }

/-- The `parseRoadmapSection`. -/
def parseRoadmapSection (content : String) : PlanRoadmap :=
  { phase1 := extractSubsectionText content ("Phase 1")
    phase2 := extractSubsectionText content ("Phase 2")
    phase3 := extractSubsectionText content ("Phase 3") }

/-- The `planContent` slice computed by `parseStructuredPlan`: the text from
the marker occurrence onward (when the marker is present, the `getD` default
is never used). -/
def planContentOf (content : String) : String :=
  ⟨jsSubstringFrom content.data ((jsIndexOf content planMarker).getD 0)⟩

/-- The `parseStructuredPlan`.  Every operation in the source's `try` block is
total, so the `catch` branch is unreachable and the result is `some` whenever
the marker is present. -/
def parseStructuredPlan (content : String) : Option StructuredPlan :=
  if isStructuredPlan content = false then none
  else
    let planContent := planContentOf content
    let title :=
      match planTitleMatch planContent with
      | some cap => jsTrim cap
      | none => "Untitled Project"
    some
      { title := title
        overview := parseOverviewSection (extractSection planContent ("## Project Overview"))
        requirements := parseRequirementsSection (extractSection planContent ("## Requirements"))
        architecture := parseArchitectureSection (extractSection planContent ("## Architecture & Tech Stack"))
        roadmap := parseRoadmapSection (extractSection planContent ("## Implementation Roadmap"))
        planStructure := extractSection planContent ("## Project Structure")
        considerations := extractSection planContent ("## Considerations & Risks")
        nextSteps := extractSection planContent ("## Next Steps")
        rawContent := planContent }

/-- Insert into a list ordered by `le` (auxiliary to `orderBy`). -/
def insertOrdered (le : α → α → Bool) (a : α) : List α → List α
  | [] => [a]
  | b :: t => if le a b then a :: b :: t else b :: insertOrdered le a t

/-- The `ORDER BY` of a database query, modelled as a stable insertion sort
on the queried comparison. -/
def orderBy (le : α → α → Bool) : List α → List α
  | [] => []
  | a :: t => insertOrdered le a (orderBy le t)

/-! ## The relational store (`app/lib/database/schema.ts`)

Rows carry the columns the personalization service reads or writes; generated
ids and `defaultNow()` timestamps are supplied as explicit parameters.  The
`jsonb` metadata attached to memory rows is only ever constructed with the
shape `{type, toolName, success}` in this codebase, modelled by `MemMeta`;
the `jsonb` tool arguments/results are modelled by their serialised text. -/

/-- Metadata attached to a stored memory (`{type, toolName, success}`). -/
structure MemMeta where
  type : String
  toolName : String
  success : Bool
deriving DecidableEq, Repr

/-- A `memory_embeddings` row. -/
structure MemoryRow where
  userId : String
  appId : Option String
  content : String
  embedding : List ℚ
  metadata : Option MemMeta
  timestamp : Nat
deriving DecidableEq, Repr

/-- A `tool_executions` row (`success` holds the source's text encoding). -/
structure ToolExecutionRow where
  userId : String
  appId : Option String
  toolName : String
  args : String
  result : String
  success : String
  timestamp : Nat
deriving DecidableEq, Repr

/-- A `user_persistent_memory` row. -/
structure PersistentMemoryRow where
  userId : String
  content : String
  createdAt : Nat
  updatedAt : Nat
deriving DecidableEq, Repr

/-- A `chat_sessions` row. -/
structure ChatSessionRow where
  id : String
  userId : String
  title : Option String
  createdAt : Nat
  updatedAt : Nat
  lastMessageAt : Nat
deriving DecidableEq, Repr

/-- Chat message roles. -/
inductive Role where
  | user
  | assistant
  | system
deriving DecidableEq, Repr, BEq

/-- A `chat_messages` row. -/
structure ChatMessageRow where
  id : String
  chatSessionId : String
  userId : String
  role : Role
  content : String
  messageIndex : String
  timestamp : Nat
  metadata : Option String
deriving DecidableEq, Repr

/-- The database state: one list of rows per table touched by the claims. -/
structure DB where
  memoryEmbeddings : List MemoryRow
  toolExecutions : List ToolExecutionRow
  userPersistentMemory : List PersistentMemoryRow
  chatSessions : List ChatSessionRow
  chatMessages : List ChatMessageRow
deriving DecidableEq, Repr

/-- The external collaborators: the embedding API (`EmbeddingService
.createEmbedding`, which may throw) and the vector-distance computation the
database performs for `embedding <=> query` (pgvector cosine distance). -/
structure Env where
  embed : String → Except String (List ℚ)
  dist : List ℚ → List ℚ → ℚ

/-! ## The personalization service (`app/lib/services/personalizationService.ts`)

Each method takes the service's `db` handle as `Option DB` — `none` is the
store-disabled state, in which every method no-ops exactly as in the source. -/

/-- A `searchMemories` result element (`MemorySearchResult`). -/
structure MemorySearchResult where
  content : String
  metadata : Option MemMeta
  similarity : ℚ
  timestamp : Nat
deriving DecidableEq, Repr

/-- The `result.similarity || 0`: on the rationals of this model the only falsy
value is `0` itself, so this is the identity; kept for step-by-step fidelity
to the source's mapping. -/
def jsOrZero (q : ℚ) : ℚ := if q = 0 then 0 else q

/-- The `where` clause of `searchMemories`: rows of the user, restricted to
the app when one is given. -/
def memoryMatches (uid : String) (appId : Option String) (r : MemoryRow) : Bool :=
  r.userId == uid &&
    (match appId with
     | some a => r.appId == some a
     | none => true)

/-- The `searchMemories(userId, query, appId?, limit = 5)`: embed the query (an
embedding failure is caught and yields `[]`), let the store order the user's
rows by ascending vector distance and truncate to `limit`, derive
`similarity = 1 - distance`, and keep only results with similarity above
`0.7`. -/
def searchMemories (env : Env) (db? : Option DB) (uid query : String)
    (appId : Option String) (lim : Nat) : List MemorySearchResult :=
  match db? with
  | none => []
  | some db =>
    match env.embed query with
    | .error _ => []
    | .ok qv =>
      let cands := db.memoryEmbeddings.filter (memoryMatches uid appId)
      let ordered :=
        orderBy (fun a b => decide (env.dist a.embedding qv ≤ env.dist b.embedding qv)) cands
      let limited := ordered.take lim
      (limited.map (fun r =>
        ({ content := r.content
           metadata := r.metadata
           similarity := jsOrZero (1 - env.dist r.embedding qv)
           timestamp := r.timestamp } : MemorySearchResult))).filter
        (fun m => decide ((7 : ℚ)/10 < m.similarity))

/-- The `storeMemory(userId, content, appId?, metadata?)`: embed, then insert one
`memory_embeddings` row; any failure is caught and swallowed, leaving the
store unchanged. -/
def storeMemory (env : Env) (db? : Option DB) (uid content : String)
    (appId : Option String) (metadata : Option MemMeta) (now : Nat) : Option DB :=
  match db? with
  | none => none
  | some db =>
    match env.embed content with
    | .error _ => some db
    | .ok emb =>
      some { db with
        memoryEmbeddings := db.memoryEmbeddings ++
          [{ userId := uid, appId := appId, content := content, embedding := emb
             metadata := metadata, timestamp := now }] }

/-- The derived-memory summary text built by `recordToolExecution` (`args`
stands for `JSON.stringify(args)`). -/
def executionSummary (toolName args : String) (success : Bool) : String :=
  "Used " ++ toolName ++ " with args: " ++ args ++ ". Result: " ++
    (if success then "success" else "error")

/-- The `recordToolExecution(userId, toolName, args, result, success, appId?)`:
insert the audit row, then best-effort store the derived memory. -/
def recordToolExecution (env : Env) (db? : Option DB) (uid toolName args result : String)
    (success : Bool) (appId : Option String) (now : Nat) : Option DB :=
  match db? with
  | none => none
  | some db =>
    let db1 : DB :=
      { db with
        toolExecutions := db.toolExecutions ++
          [{ userId := uid, appId := appId, toolName := toolName, args := args
             result := result, success := if success then "success" else "error"
             timestamp := now }] }
    storeMemory env (some db1) uid (executionSummary toolName args success) appId
      (some { type := "tool_execution", toolName := toolName, success := success }) now

/-- The `setPersistentMemory(userId, content)`: delete every row of the user,
then insert the new one. -/
def setPersistentMemory (db? : Option DB) (uid content : String) (now : Nat) : Option DB :=
  match db? with
  | none => none
  | some db =>
    some { db with
      userPersistentMemory :=
        (db.userPersistentMemory.filter (fun r => !(r.userId == uid))) ++
          [{ userId := uid, content := content, createdAt := now, updatedAt := now }] }

/-- The `getPersistentMemory(userId)`: the content of the first row of the user,
if any (`select ... limit 1`). -/
def getPersistentMemory (db? : Option DB) (uid : String) : Option String :=
  match db? with
  | none => none
  | some db =>
    ((db.userPersistentMemory.filter (fun r => r.userId == uid)).head?).map
      PersistentMemoryRow.content

/-- The `append` branch of the persistent-memory HTTP action
(`app/routes/api.memory.persistent.ts`): read the existing memory, join with
a blank line when the existing memory is truthy (non-null and non-empty),
then `setPersistentMemory`. -/
def appendPersistentMemoryAction (db? : Option DB) (uid content : String) (now : Nat) : Option DB :=
  let existingMemory := getPersistentMemory db? uid
  let updatedMemory :=
    match existingMemory with
    | some e => if e == "" then content else e ++ "\n\n" ++ content
    | none => content
  setPersistentMemory db? uid updatedMemory now

/-- Fixed-point rendering with two decimals (`Number.prototype.toFixed(2)`),
rounding to the nearest hundredth, half away from zero on the nonnegative
scores that occur here. -/
def toFixed2 (q : ℚ) : String :=
  let scaled : ℤ := (q * 100 + 1/2).floor
  let sign := if scaled < 0 then "-" else ""
  let n := scaled.natAbs
  sign ++ toString (n / 100) ++ "." ++ (if n % 100 < 10 then "0" else "") ++ toString (n % 100)

/-- One search-result bullet line of `getPersonalizedContext`. -/
def contextBullet (m : MemorySearchResult) : String :=
  "- " ++ m.content ++ " (similarity: " ++ toFixed2 m.similarity ++ ")"

/-- The persistent-memory section of `getPersonalizedContext` (empty when the
memory is absent or empty — JavaScript truthiness of the string). -/
def persistentSection (pm : Option String) : String :=
  match pm with
  | some m => if m == "" then "" else "## Persistent User Context\n" ++ m ++ "\n\n"
  | none => ""

/-- The retrieved-memories section of `getPersonalizedContext`. -/
def memoriesSection (mems : List MemorySearchResult) : String :=
  if mems.isEmpty then ""
  else
    "## Recent Relevant Context\nBased on previous interactions:\n" ++
      String.intercalate "\n" (mems.map contextBullet) ++ "\n"

/-- The `getPersonalizedContext(userId, query, appId?)`: persistent-memory
section first, then up to three relevant-memory bullets; empty string when
both sections are empty. -/
def getPersonalizedContext (env : Env) (db? : Option DB) (uid query : String)
    (appId : Option String) : String :=
  let context :=
    persistentSection (getPersistentMemory db? uid) ++
      memoriesSection (searchMemories env db? uid query appId 3)
  if context == "" then "" else "\n" ++ context ++ "\n"

/-- The `getChatSession(userId, chatSessionId)`: first row matching both the id
and the owning user, else `null`. -/
def getChatSession (db? : Option DB) (uid sid : String) : Option ChatSessionRow :=
  match db? with
  | none => none
  | some db =>
    (db.chatSessions.filter (fun s => s.id == sid && s.userId == uid)).head?

/-- The `updateChatSessionTitle(userId, chatSessionId, title)`: set title and
`updatedAt` on every row matching id and user, then return `true`; `false`
only when the store is disabled (or the database call threw, which this
model's store never does). -/
def updateChatSessionTitle (db? : Option DB) (uid sid title : String) (now : Nat) :
    Option DB × Bool :=
  match db? with
  | none => (none, false)
  | some db =>
    (some { db with
      chatSessions := db.chatSessions.map (fun s =>
        if s.id == sid && s.userId == uid then
          { s with title := some title, updatedAt := now }
        else s) }, true)

/-- The `deleteChatSession(userId, chatSessionId)`: delete the rows matching id
and user (the schema cascade also removes the messages of the deleted
sessions), then return `true`; `false` only when the store is disabled. -/
def deleteChatSession (db? : Option DB) (uid sid : String) : Option DB × Bool :=
  match db? with
  | none => (none, false)
  | some db =>
    let removed := db.chatSessions.filter (fun s => s.id == sid && s.userId == uid)
    (some { db with
      chatSessions := db.chatSessions.filter (fun s => !(s.id == sid && s.userId == uid))
      chatMessages := db.chatMessages.filter (fun m =>
        !(removed.any (fun s => s.id == m.chatSessionId))) }, true)

/-- The message-insert statement of `saveChatMessage`: returns the inserted
row (`newId` and `tInsert` model the generated id and `defaultNow()`). -/
def saveChatMessageInsert (db : DB) (uid sid : String) (role : Role)
    (content messageIndex : String) (metadata : Option String)
    (newId : String) (tInsert : Nat) : ChatMessageRow × DB :=
  let msg : ChatMessageRow :=
    { id := newId, chatSessionId := sid, userId := uid, role := role
      content := content, messageIndex := messageIndex, timestamp := tInsert
      metadata := metadata }
  (msg, { db with chatMessages := db.chatMessages ++ [msg] })

/-- The follow-up statement of `saveChatMessage`: bump `lastMessageAt` and
`updatedAt` on the session rows matching the id (the source filters by id
only here, not by user). -/
def bumpChatSession (db : DB) (sid : String) (tUpdate : Nat) : DB :=
  { db with
    chatSessions := db.chatSessions.map (fun s =>
      if s.id == sid then { s with lastMessageAt := tUpdate, updatedAt := tUpdate } else s) }

/-- The `saveChatMessage(userId, chatSessionId, role, content, messageIndex,
metadata?)`: the two statements above, run one after the other (two separate
database round trips in the source, not one transaction). -/
def saveChatMessage (db? : Option DB) (uid sid : String) (role : Role)
    (content messageIndex : String) (metadata : Option String)
    (newId : String) (tInsert tUpdate : Nat) : Option ChatMessageRow × Option DB :=
  match db? with
  | none => (none, none)
  | some db =>
    let inserted := saveChatMessageInsert db uid sid role content messageIndex metadata newId tInsert
    (some inserted.1, some (bumpChatSession inserted.2 sid tUpdate))

/-- The first messages `generateChatTitle` reads: the session's messages of
the user, ordered by timestamp ascending, limited to three. -/
def firstMessages (db : DB) (uid sid : String) : List ChatMessageRow :=
  (orderBy (fun a b => decide (a.timestamp ≤ b.timestamp))
    (db.chatMessages.filter (fun m => m.chatSessionId == sid && m.userId == uid))).take 3

/-- The title derivation of `generateChatTitle`: first 50 characters of the
trimmed content, with an ellipsis appended when the untrimmed content is
longer than 50 characters. -/
def deriveTitle (content : String) : String :=
  let t : String := ⟨(jsTrimList content.data).take 50⟩
  if content.data.length > 50 then t ++ "..." else t

/-- The `generateChatTitle(userId, chatSessionId)`: read the first three
messages, use the first user message among them, persist the derived title
via `updateChatSessionTitle`, and return it. -/
def generateChatTitle (db? : Option DB) (uid sid : String) (now : Nat) :
    Option String × Option DB :=
  match db? with
  | none => (none, none)
  | some db =>
    let messages := firstMessages db uid sid
    if messages.isEmpty then (none, some db)
    else
      match messages.find? (fun m => m.role == Role.user) with
      | none => (none, some db)
      | some firstUserMessage =>
        let title := deriveTitle firstUserMessage.content
        (some title, (updateChatSessionTitle (some db) uid sid title now).1)

/-- The trigger condition of the message-append route
(`app/routes/api.chats.$id.messages.ts`): `generateChatTitle` is invoked
after a save exactly when the saved role is `user` and the previously fetched
session title is falsy (null or the empty string). -/
def titleGenerationTriggered (role : Role) (sessionTitle : Option String) : Bool :=
  role == Role.user &&
    (match sessionTitle with
     | none => true
     | some t => t == "")

/-! ## Concrete states used by witnesses -/

/-- The empty store. -/
def emptyDB : DB :=
  { memoryEmbeddings := [], toolExecutions := [], userPersistentMemory := []
    chatSessions := [], chatMessages := [] }

/-- An environment whose embedding call succeeds and whose vector distance is
constantly `1/10` (similarity `9/10`). -/
def envNear : Env := { embed := fun _ => .ok [1], dist := fun _ _ => (1 : ℚ)/10 }

/-- An environment whose embedding call always throws. -/
def envBoom : Env := { embed := fun _ => .error "boom", dist := fun _ _ => 0 }

/-- A store holding one memory of user `u`. -/
def dbOneMemory : DB :=
  { emptyDB with
    memoryEmbeddings := [{ userId := "u", appId := none, content := "I use TypeScript"
                           embedding := [1], metadata := none, timestamp := 3 }] }

/-- The result `searchMemories` returns on `dbOneMemory` under `envNear`. -/
def nearResult : MemorySearchResult :=
  { content := "I use TypeScript", metadata := none, similarity := (9 : ℚ)/10, timestamp := 3 }

/-- A chat session of user `u` with no title. -/
def sessionU : ChatSessionRow :=
  { id := "s1", userId := "u", title := none, createdAt := 0, updatedAt := 0, lastMessageAt := 0 }

/-- A store whose only session belongs to user `other`. -/
def dbForeignSession : DB :=
  { emptyDB with chatSessions := [{ sessionU with userId := "other" }] }

/-- A store holding just `sessionU`. -/
def dbSessionOnly : DB := { emptyDB with chatSessions := [sessionU] }

/-- The message `saveChatMessage` inserts in the C5 scenario (timestamp 5). -/
def savedMsg : ChatMessageRow :=
  { id := "m1", chatSessionId := "s1", userId := "u", role := Role.user, content := "hi"
    messageIndex := "0", timestamp := 5, metadata := none }

/-- The `sessionU` after the bump at time 9. -/
def bumpedSession : ChatSessionRow := { sessionU with updatedAt := 9, lastMessageAt := 9 }

/-- The store after the full `saveChatMessage` run of the C5 scenario. -/
def dbAfterSave : DB := { emptyDB with chatSessions := [bumpedSession], chatMessages := [savedMsg] }

/-- A store with one short user message in `sessionU`. -/
def dbShortMessage : DB :=
  { emptyDB with
    chatSessions := [sessionU]
    chatMessages := [{ id := "m1", chatSessionId := "s1", userId := "u", role := Role.user
                       content := "hello world", messageIndex := "0", timestamp := 1
                       metadata := none }] }

/-- Fifty-one characters: an `a` followed by fifty spaces. -/
def longPaddedContent : String := ⟨'a' :: List.replicate 50 ' '⟩

/-- A store with one user message whose content is `longPaddedContent`. -/
def dbPaddedMessage : DB :=
  { emptyDB with
    chatSessions := [sessionU]
    chatMessages := [{ id := "m1", chatSessionId := "s1", userId := "u", role := Role.user
                       content := longPaddedContent, messageIndex := "0", timestamp := 1
                       metadata := none }] }

/-! ## Helper lemmas -/

/-- A string concatenation is empty iff both parts are. -/
theorem string_append_eq_empty_iff (a b : String) : a ++ b = "" ↔ a = "" ∧ b = "" := by
  constructor
  · intro h
    have hd : a.data ++ b.data = [] := by
      have hc := congrArg String.data h
      rwa [String.data_append] at hc
    rcases List.append_eq_nil.mp hd with ⟨h1, h2⟩
    exact ⟨String.ext h1, String.ext h2⟩
  · rintro ⟨rfl, rfl⟩
    rfl

/-- The persistent-memory section is empty iff the memory is absent or empty. -/
theorem persistentSection_eq_empty_iff (pm : Option String) :
    persistentSection pm = "" ↔ (pm = none ∨ pm = some "") := by
  cases pm with
  | none => simp [persistentSection]
  | some m =>
    by_cases hm : m = ""
    · subst hm
      simp [persistentSection]
    · have hb : (m == "") = false := by
        simpa [beq_iff_eq] using hm
      simp only [persistentSection, hb, Bool.false_eq_true, if_false, Option.some.injEq]
      constructor
      · intro h
        exact absurd ((string_append_eq_empty_iff _ _).mp h).2 (by decide)
      · rintro (h | h)
        · cases h
        · exact absurd h hm

/-- The retrieved-memories section is empty iff no memory survived the
relevance filter. -/
theorem memoriesSection_eq_empty_iff (mems : List MemorySearchResult) :
    memoriesSection mems = "" ↔ mems = [] := by
  cases mems with
  | nil => simp [memoriesSection]
  | cons x xs =>
    simp only [memoriesSection, List.isEmpty_cons, Bool.false_eq_true, if_false]
    constructor
    · intro h
      exact absurd ((string_append_eq_empty_iff _ _).mp h).2 (by decide)
    · intro h
      cases h

/-- The `searchMemories` returns at most `lim` results. -/
theorem searchMemories_length_le (env : Env) (db? : Option DB) (uid query : String)
    (appId : Option String) (lim : Nat) :
    (searchMemories env db? uid query appId lim).length ≤ lim := by
  unfold searchMemories
  cases db? with
  | none => simp
  | some db =>
    cases henv : env.embed query with
    | error e => simp
    | ok qv =>
      simp only []
      calc (List.filter _ (List.map _ _)).length
          ≤ (List.map _ _).length := List.length_filter_le _ _
        _ ≤ lim := by
            rw [List.length_map, List.length_take]
            exact min_le_left _ _

/-- The `listIndexOf` succeeds exactly on infix occurrences. -/
theorem listIndexOf_isSome_iff_infix (pat s : List Char) :
    (listIndexOf s pat).isSome = true ↔ pat <:+: s := by
  induction s with
  | nil =>
    simp only [listIndexOf]
    by_cases hp : pat.isPrefixOf ([] : List Char) = true
    · rw [if_pos hp]
      simp only [Option.isSome_some, true_iff]
      exact (List.isPrefixOf_iff_prefix.mp hp).isInfix
    · rw [if_neg hp]
      simp only [Option.isSome_none, Bool.false_eq_true, false_iff]
      intro hinf
      have hnil : pat = [] := List.infix_nil.mp hinf
      exact hp (List.isPrefixOf_iff_prefix.mpr (by simp [hnil]))
  | cons c t ih =>
    simp only [listIndexOf]
    by_cases hp : pat.isPrefixOf (c :: t) = true
    · rw [if_pos hp]
      simp only [Option.isSome_some, true_iff]
      exact (List.isPrefixOf_iff_prefix.mp hp).isInfix
    · rw [if_neg hp]
      have hmap : (Option.map (· + 1) (listIndexOf t pat)).isSome = (listIndexOf t pat).isSome := by
        cases listIndexOf t pat <;> rfl
      rw [hmap, ih, List.infix_cons_iff]
      constructor
      · intro h
        exact Or.inr h
      · rintro (h | h)
        · exact absurd (List.isPrefixOf_iff_prefix.mpr h) hp
        · exact h

/-! ## Claims -/

/-- C2: every element of the list returned by `searchMemories` has similarity
strictly greater than 0.7; no result with similarity ≤ 0.7 is surfaced. -/
theorem searchMemories_threshold (env : Env) (db? : Option DB) (uid query : String)
    (appId : Option String) (lim : Nat) (r : MemorySearchResult)
    (hr : r ∈ searchMemories env db? uid query appId lim) :
    (7 : ℚ)/10 < r.similarity := by
  unfold searchMemories at hr
  cases db? with
  | none => simp at hr
  | some db =>
    cases henv : env.embed query with
    | error e =>
      rw [henv] at hr
      simp at hr
    | ok qv =>
      rw [henv] at hr
      exact of_decide_eq_true (List.mem_filter.mp hr).2

/-- C2 witness: on a concrete store and environment the single surfaced
result indeed clears the threshold. -/
theorem searchMemories_threshold_witness : (7 : ℚ)/10 < nearResult.similarity :=
  searchMemories_threshold envNear (some dbOneMemory) "u" "q" none 5 nearResult
    (by
      have hs : searchMemories envNear (some dbOneMemory) "u" "q" none 5 = [nearResult] := by
        simp only [searchMemories, envNear, dbOneMemory, emptyDB, memoryMatches, orderBy,
          insertOrdered, jsOrZero, nearResult, List.filter, List.take, List.map]
        norm_num
      rw [hs]
      exact List.mem_singleton.mpr rfl)

/-- C4: when every session row carrying the requested id is owned by a
different user, `getChatSession` returns null — ownership fails closed. -/
theorem getChatSession_ownership (db : DB) (uid sid : String)
    (h : ∀ s ∈ db.chatSessions, s.id = sid → s.userId ≠ uid) :
    getChatSession (some db) uid sid = none := by
  have hdef : getChatSession (some db) uid sid =
      (db.chatSessions.filter (fun s => s.id == sid && s.userId == uid)).head? := rfl
  have hnil : db.chatSessions.filter (fun s => s.id == sid && s.userId == uid) = [] := by
    rw [List.filter_eq_nil_iff]
    intro s hs
    simp only [Bool.and_eq_true, beq_iff_eq, not_and]
    intro h1 h2
    exact h s hs h1 h2
  rw [hdef, hnil]
  rfl

/-- C4 witness: a store contains session `s1` owned by `other`; the lookup as
user `me` returns null even though the row exists. -/
theorem getChatSession_ownership_witness : getChatSession (some dbForeignSession) "me" "s1" = none :=
  getChatSession_ownership dbForeignSession "me" "s1" (by decide)

/-- C10: with the store enabled, `updateChatSessionTitle` and
`deleteChatSession` report success unconditionally — a caller targeting a
non-existent or foreign session receives `true` and no failure signal (shown
here in particular for stores with no matching row at all, where the session
table is returned unchanged). -/
theorem sessionMutation_returns_true (db : DB) (uid sid title : String) (now : Nat) :
    (updateChatSessionTitle (some db) uid sid title now).2 = true ∧
    (deleteChatSession (some db) uid sid).2 = true ∧
    ((∀ s ∈ db.chatSessions, (s.id == sid && s.userId == uid) = false) →
      (updateChatSessionTitle (some db) uid sid title now).1 = some db ∧
      (deleteChatSession (some db) uid sid).1 = some db) := by
  refine ⟨rfl, rfl, ?_⟩
  intro hnone
  have hfilter : db.chatSessions.filter
      (fun s => !(s.id == sid && s.userId == uid)) = db.chatSessions := by
    rw [List.filter_eq_self]
    intro s hs
    simp [hnone s hs]
  have hremoved : db.chatSessions.filter (fun s => s.id == sid && s.userId == uid) = [] := by
    rw [List.filter_eq_nil_iff]
    intro s hs
    simp [hnone s hs]
  constructor
  · have hmap : db.chatSessions.map (fun s =>
        if s.id == sid && s.userId == uid then { s with title := some title, updatedAt := now }
        else s) = db.chatSessions := by
      have hcongr := List.map_congr_left (l := db.chatSessions)
        (f := fun s => if s.id == sid && s.userId == uid then
          { s with title := some title, updatedAt := now } else s)
        (g := id) (fun a ha => by simp [hnone a ha])
      simpa using hcongr
    show some
        ({ db with chatSessions := db.chatSessions.map (fun s =>
          if s.id == sid && s.userId == uid then { s with title := some title, updatedAt := now }
          else s) } : DB) = some db
    rw [hmap]
  · show some
        ({ db with
           chatSessions := db.chatSessions.filter (fun s => !(s.id == sid && s.userId == uid))
           chatMessages := db.chatMessages.filter (fun m =>
             !((db.chatSessions.filter (fun s => s.id == sid && s.userId == uid)).any
               (fun s => s.id == m.chatSessionId))) } : DB) = some db
    rw [hfilter, hremoved]
    have hmsg : db.chatMessages.filter (fun m =>
        !(([] : List ChatSessionRow).any (fun s => s.id == m.chatSessionId))) =
        db.chatMessages := by
      rw [List.filter_eq_self]
      intro m _
      rfl
    rw [hmsg]

/-- C10 witness: on a store whose only session belongs to a different user,
both mutations leave the store unchanged yet (per the theorem) report
success. -/
theorem sessionMutation_returns_true_witness :
    (updateChatSessionTitle (some dbForeignSession) "me" "s1" "t" 3).1 = some dbForeignSession ∧
    (deleteChatSession (some dbForeignSession) "me" "s1").1 = some dbForeignSession :=
  (sessionMutation_returns_true dbForeignSession "me" "s1" "t" 3).2.2 (by decide)

/-- C9 (code bug evaluation): `extractSection` follows the claimed rule
(blank lines do not end a `## ` section), but `extractSubsectionText` starts
its extract four characters early, leaking the tail of the heading name
(`"tend"` from `"### Frontend"`) into the returned content; the bullet-list
variant shares the offset but its line regex hides the leaked fragment. -/
theorem extractSubsection_offset_bug :
    extractSection ("## A\n\ncontent here\n\nmore\n## B\nx") ("## A") = "content here\n\nmore" ∧
    extractSubsectionText ("### Frontend\nReact with Vite\n### Backend\nNone") ("Frontend") =
      some ("tend\nReact with Vite") ∧
    extractSubsectionItems ("### Functional Requirements\n- one\n- two\n### Other\n- three")
      ("Functional Requirements") = some ["one", "two"] := by
  refine ⟨?_, ?_, ?_⟩ <;> decide

/-- C3 counterexample: with `content1 = ""`, set-then-append yields `content2`
alone, not `content1 ++ "\n\n" ++ content2`. -/
theorem persistentAppend_empty_cex :
    getPersistentMemory
        (appendPersistentMemoryAction (setPersistentMemory (some emptyDB) "u" "" 0) "u" "hi" 1)
        "u" = some "hi" ∧
      ("hi" : String) ≠ "" ++ "\n\n" ++ "hi" := by
  exact ⟨by decide, by decide⟩

/-- Round trip: `setPersistentMemory` then `getPersistentMemory` returns the
written content, on any prior store state. -/
theorem getPersistentMemory_set (db : DB) (uid content : String) (t : Nat) :
    getPersistentMemory (setPersistentMemory (some db) uid content t) uid = some content := by
  have hdef : getPersistentMemory (setPersistentMemory (some db) uid content t) uid =
      ((((db.userPersistentMemory.filter (fun r : PersistentMemoryRow => !(r.userId == uid))) ++
          [({ userId := uid, content := content, createdAt := t, updatedAt := t } :
            PersistentMemoryRow)]).filter
        (fun r : PersistentMemoryRow => r.userId == uid)).head?).map PersistentMemoryRow.content := rfl
  rw [hdef, List.filter_append]
  have h1 : (db.userPersistentMemory.filter (fun r : PersistentMemoryRow => !(r.userId == uid))).filter
      (fun r : PersistentMemoryRow => r.userId == uid) = [] := by
    rw [List.filter_eq_nil_iff]
    intro r hr
    have h2 := (List.mem_filter.mp hr).2
    intro h3
    rw [h3] at h2
    exact absurd h2 (by decide)
  rw [h1]
  simp

/-- C3 amended: set-then-append round-trips to `content1 ++ "\n\n" ++
content2` for every non-empty `content1`; when `content1` is empty the append
route treats the stored memory as absent (JavaScript truthiness) and the
result is `content2` alone. -/
theorem persistentAppend_roundtrip (db : DB) (uid c1 c2 : String) (t1 t2 : Nat)
    (h : c1 ≠ "") :
    getPersistentMemory
        (appendPersistentMemoryAction (setPersistentMemory (some db) uid c1 t1) uid c2 t2)
        uid = some (c1 ++ "\n\n" ++ c2) := by
  unfold appendPersistentMemoryAction
  rw [getPersistentMemory_set]
  have hb : (c1 == "") = false := by simpa [beq_iff_eq] using h
  simp only [hb, Bool.false_eq_true, if_false]
  exact getPersistentMemory_set _ uid _ t2

/-- C3 witness: the amended round trip evaluated on a concrete store. -/
theorem persistentAppend_roundtrip_witness :
    getPersistentMemory
        (appendPersistentMemoryAction (setPersistentMemory (some emptyDB) "u" "one" 0) "u" "two" 1)
        "u" = some ("one" ++ "\n\n" ++ "two") :=
  persistentAppend_roundtrip emptyDB "u" "one" "two" 0 1 (by decide)

/-- C5 amended: after a completed `saveChatMessage` (insert at `tInsert`,
bump at the later instant `tUpdate`), every session row carrying the target
id has `lastMessageAt` at or after the inserted message's timestamp.  The two
statements are separate round trips, so the intermediate state violates this
— see the counterexample. -/
theorem saveChatMessage_lastMessageAt (db : DB) (uid sid : String) (role : Role)
    (content messageIndex : String) (metadata : Option String) (newId : String)
    (tInsert tUpdate : Nat) (hle : tInsert ≤ tUpdate) (msg : ChatMessageRow) (db' : DB)
    (hrun : saveChatMessage (some db) uid sid role content messageIndex metadata newId
      tInsert tUpdate = (some msg, some db'))
    (s : ChatSessionRow) (hs : s ∈ db'.chatSessions) (hid : s.id = sid) :
    msg.timestamp ≤ s.lastMessageAt := by
  have hcomp : saveChatMessage (some db) uid sid role content messageIndex metadata newId
      tInsert tUpdate =
      (some (saveChatMessageInsert db uid sid role content messageIndex metadata newId tInsert).1,
       some (bumpChatSession
         (saveChatMessageInsert db uid sid role content messageIndex metadata newId tInsert).2
         sid tUpdate)) := rfl
  rw [hcomp] at hrun
  have hmsg : msg =
      (saveChatMessageInsert db uid sid role content messageIndex metadata newId tInsert).1 :=
    (Option.some.inj (congrArg Prod.fst hrun)).symm
  have hdb : db' = bumpChatSession
      (saveChatMessageInsert db uid sid role content messageIndex metadata newId tInsert).2
      sid tUpdate :=
    (Option.some.inj (congrArg Prod.snd hrun)).symm
  have hts : msg.timestamp = tInsert := by
    rw [hmsg]
    rfl
  rw [hts]
  rw [hdb] at hs
  have hsmem : s ∈ db.chatSessions.map (fun s0 =>
      if s0.id == sid then { s0 with lastMessageAt := tUpdate, updatedAt := tUpdate } else s0) := hs
  rcases List.mem_map.mp hsmem with ⟨s0, _, hfs⟩
  by_cases hcase : (s0.id == sid) = true
  · rw [if_pos hcase] at hfs
    rw [← hfs]
    exact hle
  · rw [if_neg hcase] at hfs
    rw [← hfs] at hid
    exact absurd hid (by simpa [beq_iff_eq] using hcase)

/-- C5 witness: the amended invariant at a concrete run (insert at 5, bump at
9). -/
theorem saveChatMessage_lastMessageAt_witness : savedMsg.timestamp ≤ bumpedSession.lastMessageAt :=
  saveChatMessage_lastMessageAt dbSessionOnly "u" "s1" Role.user "hi" "0" none "m1" 5 9
    (by decide) savedMsg dbAfterSave (by decide) bumpedSession (by decide) (by decide)

/-- C5 counterexample: the state between the two statements of
`saveChatMessage` already contains the new message while the owning session's
`lastMessageAt` (still 0) predates the message timestamp (5) — the insert and
the bump are not atomic from a reader's perspective. -/
theorem saveChatMessage_nonatomic_cex :
    (saveChatMessageInsert dbSessionOnly "u" "s1" Role.user "hi" "0" none "m1" 5).2.chatMessages =
      [savedMsg] ∧
    (saveChatMessageInsert dbSessionOnly "u" "s1" Role.user "hi" "0" none "m1" 5).2.chatSessions =
      [sessionU] ∧
    sessionU.lastMessageAt < savedMsg.timestamp := by
  exact ⟨by decide, by decide, by decide⟩

/-- C6: `recordToolExecution` appends exactly one audit row and attempts
exactly one derived memory write (on the execution summary); when the
embedding call throws, the audit row is still present and the memory table is
untouched; no error escapes (the call always returns a state). -/
theorem recordToolExecution_spec (env : Env) (db : DB) (uid toolName args result : String)
    (success : Bool) (appId : Option String) (now : Nat) :
    ((recordToolExecution env (some db) uid toolName args result success appId now).map
        DB.toolExecutions =
      some (db.toolExecutions ++
        [({ userId := uid, appId := appId, toolName := toolName, args := args, result := result
            success := if success then "success" else "error", timestamp := now } :
          ToolExecutionRow)])) ∧
    (∀ e, env.embed (executionSummary toolName args success) = .error e →
      (recordToolExecution env (some db) uid toolName args result success appId now).map
          DB.memoryEmbeddings = some db.memoryEmbeddings) ∧
    (∀ v, env.embed (executionSummary toolName args success) = .ok v →
      (recordToolExecution env (some db) uid toolName args result success appId now).map
          DB.memoryEmbeddings =
        some (db.memoryEmbeddings ++
          [({ userId := uid, appId := appId
              content := executionSummary toolName args success, embedding := v
              metadata := some { type := "tool_execution", toolName := toolName
                                 success := success }
              timestamp := now } : MemoryRow)])) := by
  refine ⟨?_, ?_, ?_⟩
  · cases henv : env.embed (executionSummary toolName args success) with
    | error e => simp [recordToolExecution, storeMemory, henv]
    | ok v => simp [recordToolExecution, storeMemory, henv]
  · intro e he
    simp [recordToolExecution, storeMemory, he]
  · intro v hv
    simp [recordToolExecution, storeMemory, hv]

/-- C6 witness: with the embedding stubbed to throw, the audit row exists and
the memory write was skipped without an error escaping. -/
theorem recordToolExecution_spec_witness :
    (recordToolExecution envBoom (some emptyDB) "u" "create_file" "(path: a.txt)" "(ok: true)"
        true none 7).map DB.memoryEmbeddings = some emptyDB.memoryEmbeddings :=
  (recordToolExecution_spec envBoom emptyDB "u" "create_file" "(path: a.txt)" "(ok: true)"
      true none 7).2.1 "boom" rfl

/-- C7 amended: when a user message exists among the session's first three
messages (ordered by timestamp), `generateChatTitle` returns the first 50
characters of that message's TRIMMED content with an ellipsis appended iff
the untrimmed content exceeds 50 characters (`deriveTitle`); and the route
triggers title generation only for a user message on a session whose fetched
title is null or empty. -/
theorem generateChatTitle_spec (db : DB) (uid sid : String) (now : Nat) (m : ChatMessageRow)
    (hfind : (firstMessages db uid sid).find? (fun x => x.role == Role.user) = some m) :
    (generateChatTitle (some db) uid sid now).1 = some (deriveTitle m.content) ∧
    (∀ role t, titleGenerationTriggered role t = true →
      role = Role.user ∧ (t = none ∨ t = some "")) := by
  constructor
  · have hne : (firstMessages db uid sid).isEmpty = false := by
      cases hfm : firstMessages db uid sid with
      | nil =>
        rw [hfm] at hfind
        simp [List.find?] at hfind
      | cons a l => simp
    have hdef : generateChatTitle (some db) uid sid now =
        (if (firstMessages db uid sid).isEmpty then ((none : Option String), some db)
         else
           match (firstMessages db uid sid).find? (fun x => x.role == Role.user) with
           | none => (none, some db)
           | some fum =>
             (some (deriveTitle fum.content),
              (updateChatSessionTitle (some db) uid sid (deriveTitle fum.content) now).1)) := rfl
    rw [hdef, if_neg (by simp [hne]), hfind]
  · intro role t h
    unfold titleGenerationTriggered at h
    rw [Bool.and_eq_true] at h
    rcases h with ⟨h1, h2⟩
    cases role with
    | user =>
      refine ⟨rfl, ?_⟩
      cases t with
      | none => exact Or.inl rfl
      | some t' =>
        have ht : t' = "" := beq_iff_eq.mp h2
        exact Or.inr (by rw [ht])
    | assistant => exact absurd h1 (by decide)
    | system => exact absurd h1 (by decide)

/-- C7 witness: the amended derivation at a concrete store with one short
user message. -/
theorem generateChatTitle_spec_witness :
    (generateChatTitle (some dbShortMessage) "u" "s1" 4).1 = some (deriveTitle "hello world") :=
  (generateChatTitle_spec dbShortMessage "u" "s1" 4
      { id := "m1", chatSessionId := "s1", userId := "u", role := Role.user
        content := "hello world", messageIndex := "0", timestamp := 1, metadata := none }
      (by decide)).1

/-- C7 counterexample: for the 51-character content `"a" ++ 50 spaces`, the
derived title is `"a..."`, not the claim's first-50-characters-of-content
followed by the ellipsis — the source trims before truncating. -/
theorem generateChatTitle_trim_cex :
    (generateChatTitle (some dbPaddedMessage) "u" "s1" 4).1 = some "a..." ∧
    ("a..." : String) ≠ (⟨longPaddedContent.data.take 50⟩ : String) ++ "..." := by
  exact ⟨by decide, by decide⟩

/-- C8: `isStructuredPlan` is true iff the fixed marker occurs as a substring
of the text; `parseStructuredPlan` is null whenever the marker is absent; and
on marked text whose `# Project Plan:` title match fails the parse still
succeeds with title `"Untitled Project"` (nothing in the parse can throw). -/
theorem structuredPlan_spec :
    (∀ content : String, isStructuredPlan content = true ↔ planMarker.data <:+: content.data) ∧
    (∀ content : String, ¬ planMarker.data <:+: content.data →
      parseStructuredPlan content = none) ∧
    (∀ content : String, isStructuredPlan content = true →
      planTitleMatch (planContentOf content) = none →
      (parseStructuredPlan content).map StructuredPlan.title = some "Untitled Project") := by
  have hiff : ∀ content : String,
      isStructuredPlan content = true ↔ planMarker.data <:+: content.data := by
    intro content
    exact listIndexOf_isSome_iff_infix planMarker.data content.data
  refine ⟨hiff, ?_, ?_⟩
  · intro content h
    have hfalse : isStructuredPlan content = false := by
      cases hval : isStructuredPlan content
      · rfl
      · exact absurd ((hiff content).mp hval) h
    simp [parseStructuredPlan, hfalse]
  · intro content htrue hnone
    rw [parseStructuredPlan, if_neg (by simp [htrue])]
    simp only [hnone]
    rfl

/-- C8 witness: the bare marker is detected as a plan and parses to the
fallback title rather than failing. -/
theorem structuredPlan_spec_witness :
    (parseStructuredPlan planMarker).map StructuredPlan.title = some "Untitled Project" :=
  structuredPlan_spec.2.2 planMarker (by decide) (by decide)

/-- C1: `getPersonalizedContext` is empty iff the persistent memory is absent
or empty and no stored memory passed the relevance filter; otherwise it is
the newline-framed concatenation of the verbatim persistent-memory section
under its fixed heading followed by the bullet section of the (at most 3)
search results. -/
theorem getPersonalizedContext_spec (env : Env) (db? : Option DB) (uid query : String)
    (appId : Option String) :
    (getPersonalizedContext env db? uid query appId = "" ↔
      ((getPersistentMemory db? uid = none ∨ getPersistentMemory db? uid = some "") ∧
        searchMemories env db? uid query appId 3 = [])) ∧
    (searchMemories env db? uid query appId 3).length ≤ 3 ∧
    getPersonalizedContext env db? uid query appId =
      (if persistentSection (getPersistentMemory db? uid) ++
            memoriesSection (searchMemories env db? uid query appId 3) = "" then ""
       else
         "\n" ++ persistentSection (getPersistentMemory db? uid) ++
           memoriesSection (searchMemories env db? uid query appId 3) ++ "\n") := by
  have hctx : getPersonalizedContext env db? uid query appId =
      (if (persistentSection (getPersistentMemory db? uid) ++
            memoriesSection (searchMemories env db? uid query appId 3)) == "" then ""
       else
         "\n" ++ (persistentSection (getPersistentMemory db? uid) ++
           memoriesSection (searchMemories env db? uid query appId 3)) ++ "\n") := rfl
  by_cases hc : persistentSection (getPersistentMemory db? uid) ++
      memoriesSection (searchMemories env db? uid query appId 3) = ""
  · have hcb : ((persistentSection (getPersistentMemory db? uid) ++
        memoriesSection (searchMemories env db? uid query appId 3)) == "") = true := by
      simpa [beq_iff_eq] using hc
    refine ⟨?_, searchMemories_length_le env db? uid query appId 3, ?_⟩
    · rw [hctx, if_pos hcb]
      have hparts := (string_append_eq_empty_iff _ _).mp hc
      constructor
      · intro _
        exact ⟨(persistentSection_eq_empty_iff _).mp hparts.1,
               (memoriesSection_eq_empty_iff _).mp hparts.2⟩
      · intro _
        rfl
    · rw [hctx, if_pos hcb, if_pos hc]
  · have hcb : ((persistentSection (getPersistentMemory db? uid) ++
        memoriesSection (searchMemories env db? uid query appId 3)) == "") = false := by
      simpa [beq_iff_eq] using hc
    have hnotb : ¬ ((persistentSection (getPersistentMemory db? uid) ++
        memoriesSection (searchMemories env db? uid query appId 3)) == "") = true := by
      simp [hcb]
    refine ⟨?_, searchMemories_length_le env db? uid query appId 3, ?_⟩
    · rw [hctx, if_neg hnotb]
      constructor
      · intro h
        exact absurd ((string_append_eq_empty_iff _ _).mp h).2 (by decide)
      · rintro ⟨h1, h2⟩
        exact absurd ((string_append_eq_empty_iff _ _).mpr
          ⟨(persistentSection_eq_empty_iff _).mpr h1,
           (memoriesSection_eq_empty_iff _).mpr h2⟩) hc
    · rw [hctx, if_neg hnotb, if_neg hc]
      apply String.ext
      simp only [String.data_append, List.append_assoc]

end PersonalizedAI
